import Mathlib

/-!
Verification of the GPM IMERG rainfall-extraction script
(Source codes/gee_panchganga_rainfall_extraction.js).

The script is a single batch pipeline: a hard-coded region catalog of twelve
taluka points, an image collection pre-filtered to the study window, a daily
and a monthly extraction that sum the half-hourly calibrated-precipitation
samples of a period (times 0.5, converting the mm/hr rate samples into
accumulations over their own 30-minute native interval), and two table
exports. Everything below is a shallow embedding of that script.

Conventions of the embedding:
- calendar dates are represented by their day ordinal counted from
  2006-01-01 (the configured startDate); the format YYYY-MM-dd used in the
  CSV is injective on dates, so nothing is lost;
- time is discretised into half-hour slots (the native IMERG resolution),
  slot t covering the t-th half hour after 2006-01-01 00:00;
- the opaque external source is a function from a query point and a slot to
  an optional rational: none models a masked pixel / no data;
- platform semantics embedded from its documented behavior: filterDate is
  start-inclusive and end-exclusive; sequence(a, b) is the inclusive
  enumeration [a..b], empty when b < a; sum() skips masked samples and is
  itself masked (reduceRegion yields null) exactly when no sample is
  present; Object.keys enumerates the insertion order of the taluka object
  literal.
-/

namespace Panchganga

/-- Gregorian leap-year test, underlying the ee.Date day/month arithmetic
the script relies on. -/
def isLeap (y : ℕ) : Bool :=
  (y % 4 == 0 && y % 100 != 0) || y % 400 == 0

/-- Days of month m (1-12) of year y in the Gregorian calendar. -/
def daysInMonth (y m : ℕ) : ℕ :=
  if m = 2 then (if isLeap y then 29 else 28)
  else if m = 4 ∨ m = 6 ∨ m = 9 ∨ m = 11 then 30 else 31

/-- Days of year y. -/
def daysInYear (y : ℕ) : ℕ := if isLeap y then 366 else 365

/-- Days elapsed from 2006-01-01 to January 1 of year y, for y ≥ 2006. -/
def daysBeforeYear (y : ℕ) : ℕ :=
  ((List.range (y - 2006)).map (fun i => daysInYear (2006 + i))).sum

/-- Days elapsed from January 1 of year y to the first of month m (1-12). -/
def daysBeforeMonth (y m : ℕ) : ℕ :=
  ((List.range (m - 1)).map (fun i => daysInMonth y (i + 1))).sum

/-- Ordinal of the calendar date y-m-d, counted in days from 2006-01-01
(which has ordinal 0). -/
def dayOrdinal (y m d : ℕ) : ℕ := daysBeforeYear y + daysBeforeMonth y m + (d - 1)

/-- Ordinal of the first day of month (y, m): ee.Date.fromYMD(year, month, 1)
at script line 105. -/
def monthStartOrd (y m : ℕ) : ℕ := dayOrdinal y m 1

/-- Ordinal of the first day of the month after (y, m): start.advance by one
month at script line 106. -/
def nextMonthOrd (y m : ℕ) : ℕ :=
  if m = 12 then dayOrdinal (y + 1) 1 1 else dayOrdinal y (m + 1) 1

/-- Ordinal of the configured startDate 2006-01-01 (script line 7). -/
def startOrd : ℕ := dayOrdinal 2006 1 1

/-- Ordinal of the configured endDate 2025-12-31 (script line 8). -/
def endOrd : ℕ := dayOrdinal 2025 12 31

/-- Names of the twelve taluka points in the insertion order of the talukas
object literal (script lines 17-31); JavaScript preserves that order for
string keys and Object.keys enumerates it, so this is the catalog order used
by every extraction loop. -/
def talukaNames : List String :=
  ["Karvir", "Panhala", "Shahuwadi", "Kagal", "Hatkanangle", "Shirol",
   "Radhanagari", "Gaganbawada", "Bhudargad", "Gadhinglaj", "Chandgad", "Ajra"]

/-- Longitude/latitude pair of each taluka point (script lines 17-31); the
final branch is Ajra. -/
def talukaPoint (n : String) : ℚ × ℚ :=
  if n = "Karvir" then (74.2433, 16.705)
  else if n = "Panhala" then (74.1167, 16.8167)
  else if n = "Shahuwadi" then (74.4833, 16.6167)
  else if n = "Kagal" then (74.3167, 16.5833)
  else if n = "Hatkanangle" then (74.45, 16.4333)
  else if n = "Shirol" then (74.4667, 16.7167)
  else if n = "Radhanagari" then (73.9833, 16.4167)
  else if n = "Gaganbawada" then (73.7667, 16.55)
  else if n = "Bhudargad" then (74.0667, 16.0167)
  else if n = "Gadhinglaj" then (74.35, 16.2333)
  else if n = "Chandgad" then (74.2333, 15.9833)
  else (73.9667, 16.1167)

/-- Axis-aligned rectangle, for ee.Geometry.Rectangle: west, south, east,
north. -/
structure Rect where
  west : ℚ
  south : ℚ
  east : ℚ
  north : ℚ
deriving DecidableEq

/-- Panchganga basin bounding box (script lines 11-15). -/
def basin : Rect := ⟨73.5, 15.9, 74.7, 17.0⟩

/-- Model of the opaque IMERG half-hourly source: for a query point (the
reduceRegion geometry) and a half-hour slot index, the
calibrated-precipitation rate sample of the pixel containing the point, or
none when the source has no data there (masked pixel, outage, outside
coverage dates). -/
def Src : Type := ℚ × ℚ → ℕ → Option ℚ

/-- Half-hour slots per day: the native IMERG resolution is 30 minutes. -/
def slotsPerDay : ℕ := 48

/-- Slot indices selected by chaining filterDate(startDate, endDate) on the
collection (script lines 35-37; both bounds are midnights of day ordinals s
and e, start inclusive and end exclusive) with a further filterDate over the
slot window [a, b): the half-hour samples in [max (48 s) a, min (48 e) b). -/
def effectiveSlots (s e a b : ℕ) : List ℕ :=
  List.range' (max (slotsPerDay * s) a)
    (min (slotsPerDay * e) b - max (slotsPerDay * s) a)

/-- Pixel value of ImageCollection.sum() read back through
reduceRegion(first).get: sum() skips masked (missing) samples and its result
is masked - so get yields null - exactly when no sample at all is present,
in particular when the filtered collection is empty. -/
def maskedSum (l : List (Option ℚ)) : Option ℚ :=
  if l.filterMap id = [] then none else some (l.filterMap id).sum

/-- Scalar the script computes for one window query: the masked sum of the
samples multiplied by 0.5, the unit conversion of half-hourly mm/hr rate
samples into accumulations over their own half-hour interval (script
line 48, comment: 30-min data x 0.5 hr). -/
def extractValue (l : List (Option ℚ)) : Option ℚ :=
  (maskedSum l).map (fun q => q * (1 / 2))

/-- Native-interval accumulation denoted by one half-hourly rate sample:
rate in mm/hr times the half-hour native interval. -/
def nativeAccum (r : ℚ) : ℚ := r * (1 / 2)

/-- Scalar obtained for query point p over the slot window [a, b), clipped
to the pre-filter window of day ordinals [s, e). -/
def valueAt (s e : ℕ) (src : Src) (p : ℚ × ℚ) (a b : ℕ) : Option ℚ :=
  extractValue ((effectiveSlots s e a b).map (src p))

/-- rainfall_mm value of the daily extraction for query point p and date
ordinal d: filterDate from the date to its next midnight on the pre-filtered
collection, then sum, multiply by 0.5 and reduceRegion at the point (script
lines 40-58). -/
def dailyValue (s e : ℕ) (src : Src) (p : ℚ × ℚ) (d : ℕ) : Option ℚ :=
  valueAt s e src p (slotsPerDay * d) (slotsPerDay * d + slotsPerDay)

/-- rainfall_mm value of the monthly extraction for query point p and month
(y, m): filterDate from the first of the month to the first of the next
month on the pre-filtered collection (script lines 101-118). -/
def monthlyValue (s e : ℕ) (src : Src) (p : ℚ × ℚ) (y m : ℕ) : Option ℚ :=
  valueAt s e src p (slotsPerDay * monthStartOrd y m) (slotsPerDay * nextMonthOrd y m)

/-- Row of the daily table: date (by its ordinal), taluka name, nullable
rainfall_mm (script lines 60-64). -/
structure DailyRow where
  date : ℕ
  taluka : String
  rainfall_mm : Option ℚ
deriving DecidableEq

/-- Feature list pushed for one date by extractDailyRainfall (script lines
52-65): one row per taluka, in catalog order, whatever the value is. -/
def dailyRowsFor (s e : ℕ) (src : Src) (d : ℕ) : List DailyRow :=
  talukaNames.map (fun n => ⟨d, n, dailyValue s e src (talukaPoint n) d⟩)

/-- Date-ordinal sequence of script lines 71-74: days = sequence of 0 up to
end.difference(start, day) - 1, mapped through start.advance(day). The
platform sequence(0, k) is the inclusive enumeration [0..k], empty when
k < 0, so the generated dates are s, s+1, ..., e-1, and none when e ≤ s;
truncated subtraction on ℕ reproduces the empty case. -/
def datesList (s e : ℕ) : List ℕ := (List.range (e - s)).map (fun i => s + i)

/-- Flattened daily FeatureCollection rainfallData (script line 77). -/
def rainfallData (s e : ℕ) (src : Src) : List DailyRow :=
  (datesList s e).flatMap (dailyRowsFor s e src)

/-- Row of the monthly table: year, month, taluka name, nullable rainfall_mm
(script lines 120-125). -/
structure MonthlyRow where
  year : ℕ
  month : ℕ
  taluka : String
  rainfall_mm : Option ℚ
deriving DecidableEq

/-- Feature list pushed for one (year, month) by extractMonthlyRainfall
(script lines 101-128): one row per taluka, in catalog order. -/
def monthlyRowsFor (s e : ℕ) (src : Src) (ym : ℕ × ℕ) : List MonthlyRow :=
  talukaNames.map (fun n => ⟨ym.1, ym.2, n, monthlyValue s e src (talukaPoint n) ym.1 ym.2⟩)

/-- Flattened year-month combinations of script lines 133-139: years
sequence(2006, 2025) paired with months sequence(1, 12). -/
def yearMonths : List (ℕ × ℕ) :=
  (List.range' 2006 20).flatMap (fun y => (List.range' 1 12).map (fun m => (y, m)))

/-- Flattened monthly FeatureCollection monthlyData (script line 141). -/
def monthlyData (s e : ℕ) (src : Src) : List MonthlyRow :=
  yearMonths.flatMap (monthlyRowsFor s e src)

/-- Payload of one Export.table.toDrive call: collection rows, description,
file format, folder (script lines 80-85 and 144-149). -/
structure ExportTask (row : Type) where
  rows : List row
  description : String
  fileFormat : String
  folder : String
deriving DecidableEq

/-- The two Drive exports the script queues. -/
def driveExports (s e : ℕ) (src : Src) : ExportTask DailyRow × ExportTask MonthlyRow :=
  (⟨rainfallData s e src, "Panchganga_Rainfall_Taluka_Wise_2006_2025", "CSV",
    "Panchganga_Rainfall_Data"⟩,
   ⟨monthlyData s e src, "Panchganga_Rainfall_Monthly_Taluka_Wise_2006_2025", "CSV",
    "Panchganga_Rainfall_Data"⟩)

/-- Geometry drawn on the map: the basin rectangle or a taluka point. -/
inductive Geom where
  | rect : Rect → Geom
  | point : ℚ × ℚ → Geom
deriving DecidableEq

/-- Map.addLayer payload: geometry, color, display name. -/
structure Layer where
  geom : Geom
  color : String
  name : String
deriving DecidableEq

/-- Layers the script adds to the map (lines 92-98): the basin rectangle in
blue, then one red point layer per taluka. -/
def mapLayers (b : Rect) : List Layer :=
  ⟨Geom.rect b, "blue", "Panchganga Basin"⟩ ::
    talukaNames.map (fun n => ⟨Geom.point (talukaPoint n), "red", n⟩)

/-- Whole-script result: the two queued Drive exports together with the map
layers. The basin geometry b is passed as a parameter so that its influence
can be stated; in the script it feeds only Map.centerObject and the first
Map.addLayer (lines 92-93). -/
def scriptRun (b : Rect) (s e : ℕ) (src : Src) :
    (ExportTask DailyRow × ExportTask MonthlyRow) × List Layer :=
  (driveExports s e src, mapLayers b)

/-- Position of a taluka name in the catalog order. -/
def regionIdx (n : String) : ℕ := talukaNames.indexOf n

/-- Output order required of the daily dataset: period start (the date)
ascending, ties broken by catalog position. -/
def dailyLe (r1 r2 : DailyRow) : Prop :=
  r1.date < r2.date ∨ (r1.date = r2.date ∧ regionIdx r1.taluka ≤ regionIdx r2.taluka)

/-- Output order required of the monthly dataset: period start (the first
of the month) ascending, ties broken by catalog position. -/
def monthlyLe (r1 r2 : MonthlyRow) : Prop :=
  monthStartOrd r1.year r1.month < monthStartOrd r2.year r2.month ∨
    (monthStartOrd r1.year r1.month = monthStartOrd r2.year r2.month ∧
      regionIdx r1.taluka ≤ regionIdx r2.taluka)

section Helpers

lemma length_flatMap_const {α β : Type} (l : List α) (f : α → List β) (k : ℕ)
    (h : ∀ a ∈ l, (f a).length = k) : (l.flatMap f).length = l.length * k := by
  induction l with
  | nil => simp
  | cons a l ih =>
    simp only [List.flatMap_cons, List.length_append, List.length_cons]
    rw [h a (List.mem_cons_self a l), ih (fun b hb => h b (List.mem_cons_of_mem a hb))]
    ring

lemma datesList_eq_range' (s e : ℕ) : datesList s e = List.range' s (e - s) := by
  rw [datesList, List.range'_eq_map_range]

lemma datesList_length (s e : ℕ) : (datesList s e).length = e - s := by
  simp [datesList]

lemma mem_datesList {s e d : ℕ} : d ∈ datesList s e ↔ s ≤ d ∧ d < e := by
  rw [datesList_eq_range', List.mem_range'_1]
  omega

lemma rainfallData_length (s e : ℕ) (src : Src) :
    (rainfallData s e src).length = (e - s) * talukaNames.length := by
  rw [rainfallData, length_flatMap_const _ _ talukaNames.length
    (fun d _ => by simp [dailyRowsFor]), datesList_length]

lemma yearMonths_length : yearMonths.length = 20 * 12 := by
  rw [yearMonths, length_flatMap_const _ _ 12 (fun y _ => by simp), List.length_range']

lemma monthlyData_length (s e : ℕ) (src : Src) :
    (monthlyData s e src).length = (20 * 12) * talukaNames.length := by
  rw [monthlyData, length_flatMap_const _ _ talukaNames.length
    (fun ym _ => by simp [monthlyRowsFor]), yearMonths_length]

lemma maskedSum_of_all_none {l : List (Option ℚ)} (h : ∀ x ∈ l, x = none) :
    maskedSum l = none := by
  have h0 : l.filterMap id = [] := List.filterMap_eq_nil_iff.mpr (by simpa using h)
  simp [maskedSum, h0]

lemma extractValue_of_all_none {l : List (Option ℚ)} (h : ∀ x ∈ l, x = none) :
    extractValue l = none := by
  rw [extractValue, maskedSum_of_all_none h, Option.map_none']

lemma maskedSum_append_some {l1 l2 : List (Option ℚ)} {q1 q2 : ℚ}
    (h1 : maskedSum l1 = some q1) (h2 : maskedSum l2 = some q2) :
    maskedSum (l1 ++ l2) = some (q1 + q2) := by
  rw [maskedSum] at h1 h2 ⊢
  rw [List.filterMap_append]
  by_cases c1 : l1.filterMap id = []
  · rw [if_pos c1] at h1; exact absurd h1 (by simp)
  · by_cases c2 : l2.filterMap id = []
    · rw [if_pos c2] at h2; exact absurd h2 (by simp)
    · rw [if_neg c1] at h1
      rw [if_neg c2] at h2
      rw [if_neg (by simp [c1]), List.sum_append]
      rw [Option.some_inj] at h1 h2
      rw [h1, h2]

lemma maskedSum_map_some {l : List ℚ} (h : l ≠ []) :
    maskedSum (l.map some) = some l.sum := by
  rw [maskedSum, List.filterMap_map]
  have hid : List.filterMap (id ∘ some) l = l := by
    simp [Function.comp_def]
  rw [hid, if_neg h]

lemma extractValue_map_some {l : List ℚ} (h : l ≠ []) :
    extractValue (l.map some) = some (l.sum * (1 / 2)) := by
  rw [extractValue, maskedSum_map_some h, Option.map_some']

lemma maskedSum_flatMap_some (f : ℕ → Option ℚ) (g : ℕ → List ℕ) (ws : ℕ → ℚ) :
    ∀ ds : List ℕ, ds ≠ [] → (∀ d ∈ ds, maskedSum ((g d).map f) = some (ws d)) →
      maskedSum ((ds.flatMap g).map f) = some ((ds.map ws).sum) := by
  intro ds
  induction ds with
  | nil => intro h; exact absurd rfl h
  | cons d ds ih =>
    intro _ h
    rw [List.flatMap_cons, List.map_append]
    rcases Decidable.em (ds = []) with hnil | hnil
    · subst hnil
      simp only [List.flatMap_nil, List.map_nil, List.append_nil, List.map_cons,
        List.sum_cons, List.sum_nil, add_zero]
      exact h d (List.mem_cons_self d [])
    · rw [maskedSum_append_some (h d (List.mem_cons_self d ds))
        (ih hnil (fun b hb => h b (List.mem_cons_of_mem d hb)))]
      simp

lemma filter_range'_interval (lo hi : ℕ) :
    ∀ (n s : ℕ), (List.range' s n).filter (fun d => decide (lo ≤ d ∧ d < hi)) =
      List.range' (max s lo) (min hi (s + n) - max s lo) := by
  intro n
  induction n with
  | zero =>
    intro s
    have : min hi (s + 0) - max s lo = 0 := by omega
    rw [this]
    rfl
  | succ n ih =>
    intro s
    rw [List.range'_succ, List.filter_cons]
    rcases Nat.lt_or_ge s lo with hlt | hge
    · have hc : decide (lo ≤ s ∧ s < hi) = false := by
        simp only [decide_eq_false_iff_not]
        omega
      rw [hc, if_neg Bool.false_ne_true, ih (s + 1)]
      have h1 : max (s + 1) lo = max s lo := by omega
      have h2 : s + 1 + n = s + (n + 1) := by omega
      rw [h1, h2]
    · rcases Nat.lt_or_ge s hi with hsh | hsh
      · have hc : decide (lo ≤ s ∧ s < hi) = true := by
          simp only [decide_eq_true_eq]
          omega
        rw [hc, if_pos rfl, ih (s + 1)]
        have hmax : max s lo = s := by omega
        have hmax1 : max (s + 1) lo = s + 1 := by omega
        rw [hmax, hmax1]
        have hcount : min hi (s + (n + 1)) - s = (min hi (s + 1 + n) - (s + 1)) + 1 := by omega
        rw [hcount, List.range'_succ]
      · have hc : decide (lo ≤ s ∧ s < hi) = false := by
          simp only [decide_eq_false_iff_not]
          omega
        rw [hc, if_neg Bool.false_ne_true, ih (s + 1)]
        have h1 : min hi (s + 1 + n) - max (s + 1) lo = 0 := by omega
        have h2 : min hi (s + (n + 1)) - max s lo = 0 := by omega
        rw [h1, h2]
        rfl

lemma range'_flatMap_blocks (c : ℕ) :
    ∀ (n a : ℕ), (List.range' a n).flatMap (fun d => List.range' (c * d) c) =
      List.range' (c * a) (c * n) := by
  intro n
  induction n with
  | zero => intro a; simp
  | succ n ih =>
    intro a
    rw [List.range'_succ, List.flatMap_cons, ih (a + 1)]
    have h1 : c * (a + 1) = c * a + 1 * c := by ring
    rw [h1, List.range'_append, Nat.mul_succ]

lemma filter_eq_singleton {α : Type} [DecidableEq α] :
    ∀ (l : List α) (a : α), l.Nodup → a ∈ l → l.filter (fun x => decide (x = a)) = [a] := by
  intro l
  induction l with
  | nil =>
    intro a _ ha
    exact absurd ha (List.not_mem_nil a)
  | cons b l ih =>
    intro a hnd ha
    rw [List.filter_cons]
    rcases List.mem_cons.mp ha with hab | hal
    · rw [if_pos (by simp [hab])]
      have hbl : b ∉ l := (List.nodup_cons.mp hnd).1
      have hfl : l.filter (fun x => decide (x = a)) = [] := by
        rw [List.filter_eq_nil_iff]
        intro x hx
        simp only [decide_eq_true_eq]
        intro hxa
        have hxb : x = b := by rw [hxa, ← hab]
        exact hbl (hxb ▸ hx)
      rw [hfl, hab]
    · have hba : ¬ (b = a) := fun hb => (List.nodup_cons.mp hnd).1 (hb ▸ hal)
      rw [if_neg (by simpa using hba)]
      exact ih a (List.nodup_cons.mp hnd).2 hal

lemma flatMap_eq_singleton {α β : Type} :
    ∀ (l : List α) (f : α → List β) (a : α) (x : β), l.Nodup → a ∈ l → f a = [x] →
      (∀ b ∈ l, b ≠ a → f b = []) → l.flatMap f = [x] := by
  intro l
  induction l with
  | nil =>
    intro f a x _ ha _ _
    exact absurd ha (List.not_mem_nil a)
  | cons c l ih =>
    intro f a x hnd ha hfa hother
    rw [List.flatMap_cons]
    rcases List.mem_cons.mp ha with hac | hal
    · have hrest : l.flatMap f = [] := by
        rw [List.flatMap_eq_nil_iff]
        intro b hb
        refine hother b (List.mem_cons_of_mem c hb) ?_
        intro hba
        have hcb : c = b := by rw [hba, hac]
        exact (List.nodup_cons.mp hnd).1 (hcb ▸ hb)
      have hfc : f c = [x] := hac ▸ hfa
      rw [hfc, hrest, List.append_nil]
    · have hca : c ≠ a := fun hc => (List.nodup_cons.mp hnd).1 (hc ▸ hal)
      rw [hother c (List.mem_cons_self c l) hca, List.nil_append]
      exact ih f a x (List.nodup_cons.mp hnd).2 hal hfa
        (fun b hb hba => hother b (List.mem_cons_of_mem c hb) hba)

set_option maxRecDepth 10000

lemma talukaNames_nodup : talukaNames.Nodup := by decide

lemma talukaNames_regionIdx_mono :
    List.Pairwise (fun n1 n2 => regionIdx n1 ≤ regionIdx n2) talukaNames := by decide

lemma yearMonths_monthStartOrd_mono :
    List.Pairwise (fun a b => monthStartOrd a.1 a.2 < monthStartOrd b.1 b.2) yearMonths := by
  decide

lemma effectiveSlots_day (s e d : ℕ) (hs : s ≤ d) (hd : d < e) :
    effectiveSlots s e (slotsPerDay * d) (slotsPerDay * d + slotsPerDay) =
      List.range' (slotsPerDay * d) slotsPerDay := by
  have h1 : max (slotsPerDay * s) (slotsPerDay * d) = slotsPerDay * d := by
    simp only [slotsPerDay]
    omega
  have h2 : min (slotsPerDay * e) (slotsPerDay * d + slotsPerDay) - slotsPerDay * d =
      slotsPerDay := by
    simp only [slotsPerDay]
    omega
  rw [effectiveSlots, h1, h2]

lemma effectiveSlots_month (s e mS mE : ℕ) (hs : s ≤ mS) :
    effectiveSlots s e (slotsPerDay * mS) (slotsPerDay * mE) =
      List.range' (slotsPerDay * mS) (slotsPerDay * (min mE e - mS)) := by
  have h1 : max (slotsPerDay * s) (slotsPerDay * mS) = slotsPerDay * mS := by
    simp only [slotsPerDay]
    omega
  have h2 : min (slotsPerDay * e) (slotsPerDay * mE) - slotsPerDay * mS =
      slotsPerDay * (min mE e - mS) := by
    simp only [slotsPerDay]
    omega
  rw [effectiveSlots, h1, h2]

lemma maskedSum_of_extractValue {l : List (Option ℚ)} {v : ℚ}
    (h : extractValue l = some v) : maskedSum l = some (2 * v) := by
  rw [extractValue] at h
  rcases hm : maskedSum l with _ | q
  · rw [hm] at h
    simp at h
  · rw [hm, Option.map_some'] at h
    have hq : q * (1 / 2) = v := Option.some_inj.mp h
    rw [Option.some_inj]
    linarith

lemma rainfallData_eq_nil_of_le (s e : ℕ) (src : Src) (h : e ≤ s) :
    rainfallData s e src = [] := by
  rw [rainfallData]
  have hd : datesList s e = [] := by
    rw [datesList_eq_range']
    have h0 : e - s = 0 := by omega
    rw [h0]
    rfl
  rw [hd]
  rfl

lemma monthlyValue_none_of_window_empty (s e : ℕ) (src : Src) (p : ℚ × ℚ) (y m : ℕ)
    (h : e ≤ s) : monthlyValue s e src p y m = none := by
  rw [monthlyValue, valueAt]
  have hempty : effectiveSlots s e (slotsPerDay * monthStartOrd y m)
      (slotsPerDay * nextMonthOrd y m) = [] := by
    rw [effectiveSlots]
    have h0 : min (slotsPerDay * e) (slotsPerDay * nextMonthOrd y m) -
        max (slotsPerDay * s) (slotsPerDay * monthStartOrd y m) = 0 := by
      simp only [slotsPerDay]
      omega
    rw [h0]
    rfl
  rw [hempty]
  simp [extractValue, maskedSum]

lemma dailyRowsFor_sorted (s e : ℕ) (src : Src) (d : ℕ) :
    List.Pairwise dailyLe (dailyRowsFor s e src d) := by
  rw [dailyRowsFor, List.pairwise_map]
  refine talukaNames_regionIdx_mono.imp ?_
  intro n1 n2 h
  exact Or.inr ⟨rfl, h⟩

lemma rainfallData_sorted (s e : ℕ) (src : Src) :
    (rainfallData s e src).Pairwise dailyLe := by
  rw [rainfallData, List.flatMap_def, List.pairwise_flatten]
  constructor
  · intro l hl
    rw [List.mem_map] at hl
    obtain ⟨d, _, rfl⟩ := hl
    exact dailyRowsFor_sorted s e src d
  · rw [List.pairwise_map]
    have hdl : (datesList s e).Pairwise (· < ·) := by
      rw [datesList_eq_range']
      exact List.pairwise_lt_range' ..
    refine hdl.imp ?_
    intro d1 d2 hlt x hx y hy
    rw [dailyRowsFor, List.mem_map] at hx hy
    obtain ⟨n1, _, rfl⟩ := hx
    obtain ⟨n2, _, rfl⟩ := hy
    exact Or.inl hlt

lemma monthlyRowsFor_sorted (s e : ℕ) (src : Src) (ym : ℕ × ℕ) :
    List.Pairwise monthlyLe (monthlyRowsFor s e src ym) := by
  rw [monthlyRowsFor, List.pairwise_map]
  refine talukaNames_regionIdx_mono.imp ?_
  intro n1 n2 h
  exact Or.inr ⟨rfl, h⟩

lemma monthlyData_sorted (s e : ℕ) (src : Src) :
    (monthlyData s e src).Pairwise monthlyLe := by
  rw [monthlyData, List.flatMap_def, List.pairwise_flatten]
  constructor
  · intro l hl
    rw [List.mem_map] at hl
    obtain ⟨ym, _, rfl⟩ := hl
    exact monthlyRowsFor_sorted s e src ym
  · rw [List.pairwise_map]
    refine yearMonths_monthStartOrd_mono.imp ?_
    intro ym1 ym2 hlt x hx y hy
    rw [monthlyRowsFor, List.mem_map] at hx hy
    obtain ⟨n1, _, rfl⟩ := hx
    obtain ⟨n2, _, rfl⟩ := hy
    exact Or.inl hlt

end Helpers

/-- C1, counterexample: at the configured study interval (startOrd = 2006-01-01,
endOrd = 2025-12-31, with end_date ≥ start_date) the generated daily index does
not have (end - start).days + 1 periods, and the period of end_date itself is
missing: the script generates sequence(0, diff - 1) over an end-exclusive
pre-filter, so the dates run from start_date to end_date - 1 day only. -/
theorem c1_counterexample :
    (datesList startOrd endOrd).length ≠ (endOrd - startOrd) + 1 ∧
    endOrd ∉ datesList startOrd endOrd := by
  constructor
  · rw [datesList_length]
    omega
  · rw [mem_datesList]
    omega

/-- C1, amended: for every study interval with end ≥ start, the daily index has
exactly (end - start).days periods, one per calendar date from start_date up to
but excluding end_date, pairwise distinct (hence the periods
[date 00:00, date+1 00:00) are non-overlapping) and jointly covering
[start_date, end_date). -/
theorem c1_daily_periods (s e : ℕ) (h : s ≤ e) :
    (datesList s e).length = e - s ∧
    (∀ d, d ∈ datesList s e ↔ s ≤ d ∧ d < e) ∧
    (datesList s e).Pairwise (· < ·) := by
  refine ⟨datesList_length s e, fun d => mem_datesList, ?_⟩
  rw [datesList_eq_range']
  exact List.pairwise_lt_range' ..

/-- C1, witness: the amended statement instantiated at the interval of day
ordinals [2, 5]. -/
theorem c1_daily_periods_witness :
    (datesList 2 5).length = 5 - 2 ∧
    (∀ d, d ∈ datesList 2 5 ↔ 2 ≤ d ∧ d < 5) ∧
    (datesList 2 5).Pairwise (· < ·) :=
  c1_daily_periods 2 5 (by decide)

/-- C2: for native sub-period samples with rates raws (each denoting, as an
accumulation over its own half-hour native interval, nativeAccum of its rate),
the extraction returns exactly the sum of those accumulations - the masked sum
of the rate samples times 0.5 - with no averaging and no further scaling. -/
theorem c2_extract_sums_native_accumulations (raws : List ℚ) (h : raws ≠ []) :
    extractValue (raws.map some) = some ((raws.map nativeAccum).sum) := by
  have hsum : ∀ l : List ℚ, (l.map nativeAccum).sum = l.sum * (1 / 2) := by
    intro l
    induction l with
    | nil => simp
    | cons a l ih =>
      rw [List.map_cons, List.sum_cons, List.sum_cons, ih, nativeAccum]
      ring
  rw [extractValue_map_some h, hsum raws]

/-- C2, witness: the extraction over the two half-hour rate samples 1 and 2
returns the sum of their native accumulations. -/
theorem c2_witness :
    extractValue ([(1 : ℚ), 2].map some) = some (([(1 : ℚ), 2].map nativeAccum).sum) :=
  c2_extract_sums_native_accumulations [1, 2] (by simp)

/-- C3, counterexample: at the configured study interval the daily dataset does
not have |regions| × ((end - start).days + 1) rows - the script emits one date
fewer (end_date gets no row). -/
theorem c3_counterexample :
    (rainfallData startOrd endOrd (fun _ _ => none)).length ≠
      ((endOrd - startOrd) + 1) * talukaNames.length := by
  rw [rainfallData_length]
  have h12 : talukaNames.length = 12 := rfl
  rw [h12]
  omega

/-- C3, amended: for every run the daily dataset has exactly
|regions| × (end - start).days rows (one per (region, generated date) pair,
missing-value rows included since a row is pushed for every taluka whatever the
value), and the monthly dataset has exactly |regions| × 12 × 20 rows for the
hard-coded years 2006-2025. -/
theorem c3_row_counts (s e : ℕ) (src : Src) :
    (rainfallData s e src).length = (e - s) * talukaNames.length ∧
    (monthlyData s e src).length = (20 * 12) * talukaNames.length :=
  ⟨rainfallData_length s e src, monthlyData_length s e src⟩

/-- C4, counterexample: for the month (2025, 12) of the configured run the
monthly extraction does not query the whole calendar month: the pre-filter
filterDate(startDate, endDate) is end-exclusive, so the slots of 2025-12-31
are cut off and only [2025-12-01, 2025-12-31) is queried. -/
theorem c4_counterexample :
    effectiveSlots startOrd endOrd (slotsPerDay * monthStartOrd 2025 12)
        (slotsPerDay * nextMonthOrd 2025 12) ≠
      List.range' (slotsPerDay * monthStartOrd 2025 12)
        (slotsPerDay * (nextMonthOrd 2025 12 - monthStartOrd 2025 12)) := by
  intro hEq
  have hlen := congrArg List.length hEq
  rw [effectiveSlots, List.length_range', List.length_range'] at hlen
  have h1 : startOrd = 0 := by decide
  have h2 : endOrd = 7304 := by decide
  have h3 : monthStartOrd 2025 12 = 7274 := by decide
  have h4 : nextMonthOrd 2025 12 = 7305 := by decide
  rw [h1, h2, h3, h4] at hlen
  simp only [slotsPerDay] at hlen
  omega

/-- C4, amended: for every (year, month) pair the monthly extraction queries
exactly the intersection of the calendar month
[first-of-month, first-of-next-month) with the end-exclusive collection window
[start_date, end_date) - the contiguous slot range from the first of the month
to the earlier of the next month start and end_date. In particular the whole
calendar month is queried whenever the month lies entirely inside the window,
a month reaching past end_date (such as the configured December 2025) is
truncated at end_date, and no queried sample ever lies outside the window. -/
theorem c4_month_window (s e y m : ℕ) (hs : s ≤ monthStartOrd y m) :
    effectiveSlots s e (slotsPerDay * monthStartOrd y m) (slotsPerDay * nextMonthOrd y m) =
      List.range' (slotsPerDay * monthStartOrd y m)
        (slotsPerDay * (min (nextMonthOrd y m) e - monthStartOrd y m)) ∧
    (nextMonthOrd y m ≤ e →
      effectiveSlots s e (slotsPerDay * monthStartOrd y m)
          (slotsPerDay * nextMonthOrd y m) =
        List.range' (slotsPerDay * monthStartOrd y m)
          (slotsPerDay * (nextMonthOrd y m - monthStartOrd y m))) ∧
    ∀ t ∈ effectiveSlots s e (slotsPerDay * monthStartOrd y m)
        (slotsPerDay * nextMonthOrd y m),
      slotsPerDay * s ≤ t ∧ t < slotsPerDay * e := by
  have hmain := effectiveSlots_month s e (monthStartOrd y m) (nextMonthOrd y m) hs
  refine ⟨hmain, ?_, ?_⟩
  · intro he
    rw [hmain]
    have hmin : min (nextMonthOrd y m) e = nextMonthOrd y m := by omega
    rw [hmin]
  · intro t ht
    rw [effectiveSlots, List.mem_range'_1] at ht
    simp only [slotsPerDay] at ht ⊢
    omega

/-- C4, witness: the amended statement instantiated at the truncated month
December 2025 of the configured window [startOrd, endOrd): the queried slots
are exactly the clipped range from ordinal 7274 (2025-12-01) to
min 7305 7304 = 7304 (end_date 2025-12-31), i.e. 48 x 30 slots, and the
full-month implication and the inside-the-window bounds hold there too. -/
theorem c4_month_window_witness :
    (effectiveSlots startOrd endOrd (slotsPerDay * monthStartOrd 2025 12)
        (slotsPerDay * nextMonthOrd 2025 12) =
      List.range' (slotsPerDay * monthStartOrd 2025 12)
        (slotsPerDay * (min (nextMonthOrd 2025 12) endOrd - monthStartOrd 2025 12))) ∧
    (nextMonthOrd 2025 12 ≤ endOrd →
      effectiveSlots startOrd endOrd (slotsPerDay * monthStartOrd 2025 12)
          (slotsPerDay * nextMonthOrd 2025 12) =
        List.range' (slotsPerDay * monthStartOrd 2025 12)
          (slotsPerDay * (nextMonthOrd 2025 12 - monthStartOrd 2025 12))) ∧
    ∀ t ∈ effectiveSlots startOrd endOrd (slotsPerDay * monthStartOrd 2025 12)
        (slotsPerDay * nextMonthOrd 2025 12),
      slotsPerDay * startOrd ≤ t ∧ t < slotsPerDay * endOrd :=
  c4_month_window startOrd endOrd 2025 12 (by decide)

/-- C5: when the source has no data at a taluka point for a whole generated
date, the daily dataset still contains exactly one row for that (date, taluka)
pair, carrying the explicit missing marker none, and the missing marker is
distinguishable from a true zero. -/
theorem c5_missing_value_row (s e : ℕ) (src : Src) (nm : String) (d : ℕ)
    (hn : nm ∈ talukaNames) (hd : d ∈ datesList s e)
    (hmiss : ∀ t ∈ effectiveSlots s e (slotsPerDay * d) (slotsPerDay * d + slotsPerDay),
      src (talukaPoint nm) t = none) :
    (rainfallData s e src).filter
        (fun r => decide (r.date = d ∧ r.taluka = nm)) = [⟨d, nm, none⟩] ∧
    (none : Option ℚ) ≠ some 0 := by
  refine ⟨?_, by simp⟩
  have hval : dailyValue s e src (talukaPoint nm) d = none := by
    rw [dailyValue, valueAt]
    apply extractValue_of_all_none
    intro x hx
    rw [List.mem_map] at hx
    obtain ⟨t, ht, rfl⟩ := hx
    exact hmiss t ht
  rw [rainfallData, List.filter_flatMap]
  refine flatMap_eq_singleton (datesList s e)
    (fun a => (dailyRowsFor s e src a).filter
      (fun r => decide (r.date = d ∧ r.taluka = nm)))
    d (⟨d, nm, none⟩ : DailyRow) ?_ hd ?_ ?_
  · rw [datesList_eq_range']
    exact List.nodup_range' ..
  · show (dailyRowsFor s e src d).filter
      (fun r => decide (r.date = d ∧ r.taluka = nm)) = [(⟨d, nm, none⟩ : DailyRow)]
    rw [dailyRowsFor, List.filter_map]
    have hcomp : ((fun r : DailyRow => decide (r.date = d ∧ r.taluka = nm)) ∘
        (fun n => (⟨d, n, dailyValue s e src (talukaPoint n) d⟩ : DailyRow))) =
        fun n => decide (n = nm) := by
      funext n
      simp [decide_eq_decide]
    rw [hcomp, filter_eq_singleton talukaNames nm talukaNames_nodup hn]
    simp [hval]
  · intro d2 _ hne
    show (dailyRowsFor s e src d2).filter
      (fun r => decide (r.date = d ∧ r.taluka = nm)) = []
    rw [List.filter_eq_nil_iff]
    intro r hr
    rw [dailyRowsFor, List.mem_map] at hr
    obtain ⟨n2, _, rfl⟩ := hr
    simp only [decide_eq_true_eq]
    intro hcontra
    exact hne hcontra.1

/-- C5, witness: the missing-data scenario of the specification - a source
with no data at all, the date 2009-03-15 and the region Ajra - produces the
single row (2009-03-15, Ajra, none) in the configured run. -/
theorem c5_witness :
    (rainfallData startOrd endOrd (fun _ _ => none)).filter
        (fun r => decide (r.date = dayOrdinal 2009 3 15 ∧ r.taluka = "Ajra")) =
      [⟨dayOrdinal 2009 3 15, "Ajra", none⟩] ∧
    (none : Option ℚ) ≠ some 0 :=
  c5_missing_value_row startOrd endOrd (fun _ _ => none) "Ajra" (dayOrdinal 2009 3 15)
    (by decide) (by rw [mem_datesList]; decide) (fun t _ => rfl)

/-- C6: every assembled dataset is ordered by period start ascending with ties
broken by the catalog order of the regions: the daily rows by date then taluka
position, the monthly rows by first-of-month ordinal then taluka position. -/
theorem c6_output_ordering (s e : ℕ) (src : Src) :
    (rainfallData s e src).Pairwise dailyLe ∧
    (monthlyData s e src).Pairwise monthlyLe :=
  ⟨rainfallData_sorted s e src, monthlyData_sorted s e src⟩

/-- C7: for any region point and any month that meets the study window, if
every date of that month present in the daily index has a non-missing daily
value, then the monthly extraction value equals exactly (in ℚ, hence within
any floating-point tolerance) the sum of those daily values. -/
theorem c7_monthly_consistency (s e y m : ℕ) (src : Src) (p : ℚ × ℚ) (vs : ℕ → ℚ)
    (hs : s ≤ monthStartOrd y m)
    (hne : monthStartOrd y m < min (nextMonthOrd y m) e)
    (hdaily : ∀ d ∈ (datesList s e).filter
        (fun d => decide (monthStartOrd y m ≤ d ∧ d < nextMonthOrd y m)),
      dailyValue s e src p d = some (vs d)) :
    monthlyValue s e src p y m =
      some ((((datesList s e).filter
        (fun d => decide (monthStartOrd y m ≤ d ∧ d < nextMonthOrd y m))).map vs).sum) := by
  have hse : s ≤ e := le_trans hs (le_of_lt (lt_of_lt_of_le hne (min_le_right _ _)))
  have hdays : (datesList s e).filter
      (fun d => decide (monthStartOrd y m ≤ d ∧ d < nextMonthOrd y m)) =
      List.range' (monthStartOrd y m) (min (nextMonthOrd y m) e - monthStartOrd y m) := by
    rw [datesList_eq_range', filter_range'_interval (monthStartOrd y m) (nextMonthOrd y m)
      (e - s) s]
    have h1 : max s (monthStartOrd y m) = monthStartOrd y m := by omega
    have h2 : s + (e - s) = e := by omega
    rw [h1, h2]
  rw [hdays] at hdaily ⊢
  have hday_val : ∀ d ∈ List.range' (monthStartOrd y m)
      (min (nextMonthOrd y m) e - monthStartOrd y m),
      maskedSum ((List.range' (slotsPerDay * d) slotsPerDay).map (src p)) =
        some (2 * vs d) := by
    intro d hdm
    have hdm2 := hdm
    rw [List.mem_range'_1] at hdm2
    have hd1 : s ≤ d := le_trans hs hdm2.1
    have hd2 : d < e := by omega
    have hv := hdaily d hdm
    rw [dailyValue, valueAt, effectiveSlots_day s e d hd1 hd2] at hv
    exact maskedSum_of_extractValue hv
  have hflat : effectiveSlots s e (slotsPerDay * monthStartOrd y m)
      (slotsPerDay * nextMonthOrd y m) =
      (List.range' (monthStartOrd y m) (min (nextMonthOrd y m) e - monthStartOrd y m)).flatMap
        (fun d => List.range' (slotsPerDay * d) slotsPerDay) := by
    rw [effectiveSlots_month s e _ _ hs, range'_flatMap_blocks]
  have hnonempty : List.range' (monthStartOrd y m)
      (min (nextMonthOrd y m) e - monthStartOrd y m) ≠ [] := by
    intro hnil
    have hlen := congrArg List.length hnil
    rw [List.length_range'] at hlen
    simp only [List.length_nil] at hlen
    omega
  rw [monthlyValue, valueAt, hflat, extractValue,
    maskedSum_flatMap_some (src p) (fun d => List.range' (slotsPerDay * d) slotsPerDay)
      (fun d => 2 * vs d)
      (List.range' (monthStartOrd y m) (min (nextMonthOrd y m) e - monthStartOrd y m))
      hnonempty hday_val,
    Option.map_some', Option.some_inj]
  have hdouble : ∀ l : List ℕ, (l.map (fun d => 2 * vs d)).sum = (l.map vs).sum * 2 := by
    intro l
    induction l with
    | nil => simp
    | cons a l ih =>
      rw [List.map_cons, List.sum_cons, List.map_cons, List.sum_cons, ih]
      ring
  rw [hdouble]
  ring

/-- C7, witness: one-day window (day ordinal 0), January 2006, a source that is
constantly the rate 1 mm/hr: the single generated date of the month has daily
value 24 mm and the monthly value is the sum of the daily values. -/
theorem c7_witness :
    monthlyValue 0 1 (fun _ _ => some 1) (talukaPoint "Ajra") 2006 1 =
      some ((((datesList 0 1).filter
        (fun d => decide (monthStartOrd 2006 1 ≤ d ∧ d < nextMonthOrd 2006 1))).map
          (fun _ => (24 : ℚ))).sum) := by
  refine c7_monthly_consistency 0 1 2006 1 (fun _ _ => some 1) (talukaPoint "Ajra")
    (fun _ => (24 : ℚ)) (by decide) (by decide) ?_
  have hlist : (datesList 0 1).filter
      (fun d => decide (monthStartOrd 2006 1 ≤ d ∧ d < nextMonthOrd 2006 1)) = [0] := by
    decide
  rw [hlist]
  intro d hd
  rw [List.mem_singleton] at hd
  subst hd
  have hslots : effectiveSlots 0 1 (slotsPerDay * 0) (slotsPerDay * 0 + slotsPerDay) =
      List.range' 0 48 := by decide
  rw [dailyValue, valueAt, hslots]
  have hmap : (List.range' 0 48).map
      ((fun (_ : ℚ × ℚ) (_ : ℕ) => some (1 : ℚ)) (talukaPoint "Ajra")) =
      ((List.range' 0 48).map (fun _ => (1 : ℚ))).map some := by
    rw [List.map_map]
    rfl
  rw [hmap, extractValue_map_some (by simp), Option.some_inj]
  show ((List.range' 0 48).map (fun _ => (1 : ℚ))).sum * (1 / 2) = 24
  have hconst : (List.range' 0 48).map (fun _ => (1 : ℚ)) = List.replicate 48 1 := by
    simp
  rw [hconst, List.sum_replicate, nsmul_eq_mul]
  norm_num

/-- C8: the pipeline is a deterministic function of its inputs - two runs over
sources that agree at every query point and sample slot queue byte-identical
Drive exports: same rows in the same order with the same values, and the same
export metadata. -/
theorem c8_deterministic (s e : ℕ) (src1 src2 : Src) (h : ∀ p t, src1 p t = src2 p t) :
    driveExports s e src1 = driveExports s e src2 := by
  have hsrc : src1 = src2 := funext (fun p => funext (fun t => h p t))
  rw [hsrc]

/-- C8, witness: the determinism statement applied to two runs of the
configured one-day window over the all-missing source. -/
theorem c8_witness :
    driveExports 0 1 (fun _ _ => none) = driveExports 0 1 (fun _ _ => none) :=
  c8_deterministic 0 1 (fun _ _ => none) (fun _ _ => none) (fun _ _ => rfl)

/-- C9, counterexample: with end_date strictly before start_date the script
raises no configuration error and proceeds: the daily export is the empty
table and the monthly extraction still runs over the hard-coded years,
producing its full 2880 rows. -/
theorem c9_counterexample :
    rainfallData 5 3 (fun _ _ => none) = [] ∧
    (monthlyData 5 3 (fun _ _ => none)).length = 2880 := by
  refine ⟨rainfallData_eq_nil_of_le 5 3 _ (by decide), ?_⟩
  rw [monthlyData_length]
  rfl

/-- C9, amended: the script performs no date validation; when end_date is
before start_date no error is surfaced - the daily date sequence is empty
(so the daily dataset is the empty table) and the monthly extraction still
emits one row per hard-coded (year, month) and region, every row carrying
the missing marker because the pre-filtered collection window is empty. -/
theorem c9_no_validation (s e : ℕ) (src : Src) (h : e < s) :
    rainfallData s e src = [] ∧
    (monthlyData s e src).length = (20 * 12) * talukaNames.length ∧
    ∀ r ∈ monthlyData s e src, r.rainfall_mm = none := by
  refine ⟨rainfallData_eq_nil_of_le s e src (by omega), monthlyData_length s e src, ?_⟩
  intro r hr
  rw [monthlyData, List.mem_flatMap] at hr
  obtain ⟨ym, _, hrm⟩ := hr
  rw [monthlyRowsFor, List.mem_map] at hrm
  obtain ⟨n, _, rfl⟩ := hrm
  exact monthlyValue_none_of_window_empty s e src (talukaPoint n) ym.1 ym.2 (by omega)

/-- C9, witness: the amended statement at the window with start ordinal 5 and
end ordinal 3 over a source that always has data. -/
theorem c9_witness :
    rainfallData 5 3 (fun _ _ => some 1) = [] ∧
    (monthlyData 5 3 (fun _ _ => some 1)).length = (20 * 12) * talukaNames.length ∧
    ∀ r ∈ monthlyData 5 3 (fun _ _ => some 1), r.rainfall_mm = none :=
  c9_no_validation 5 3 (fun _ _ => some 1) (by decide)

/-- C10: the basin geometry feeds only the map visualization; runs differing
only in the basin rectangle queue identical daily and monthly Drive exports -
the exported observations depend only on the study dates, the source and the
per-region point coordinates. -/
theorem c10_basin_noninterference (b1 b2 : Rect) (s e : ℕ) (src : Src) :
    (scriptRun b1 s e src).1 = (scriptRun b2 s e src).1 := rfl

end Panchganga
